import Mathlib

/-
Verification of the MQTT fixed-header model in `asynqtt/protocol/fixedheader.py`:
packet types, per-type flag bits, control-packet descriptors, the
`RemainingLength` wrapper, and the Remaining Length variable-byte-integer
codec described by the design document.

Python machine integers are unbounded, so `int` is embedded as `Int`
(or `Nat` where the source value is a byte count that can only be
non-negative by construction).
-/

namespace Asynqtt

/-! ### Flag model (`PublishFlags`, `ZeroBits`, `PubrelBits`) -/

/-- Legal values for `PublishFlags.dup`, from `PublishFlags.__post_init__`:
`self._validate_in(self.dup, (0, 1), "dup")`. -/
def legalDup : List Int := [0, 1]

/-- Legal values for `PublishFlags.qos`: `(0, 1, 2)`. -/
def legalQos : List Int := [0, 1, 2]

/-- Legal values for `PublishFlags.retain`: `(0, 1)`. -/
def legalRetain : List Int := [0, 1]

/-- The payload of the `ValueError` raised by `PublishFlags._validate_in`:
`f"{attribute} must be in {container} but not {value}"` names the attribute,
the legal container and the offending value. -/
structure FlagErr where
  attr : String
  container : List Int
  value : Int
deriving DecidableEq, Repr

/-- `PublishFlags`: a frozen dataclass whose `__post_init__` always runs and
raises unless `dup ∈ (0,1)`, `qos ∈ (0,1,2)`, `retain ∈ (0,1)`; hence every
live instance carries those facts, embedded here as proof fields. -/
structure PublishFlags where
  dup : Int
  qos : Int
  retain : Int
  dup_mem : dup ∈ legalDup
  qos_mem : qos ∈ legalQos
  retain_mem : retain ∈ legalRetain

/-- Constructing `PublishFlags(dup, qos, retain)`: `__post_init__` validates
`dup`, then `qos`, then `retain`, raising `ValueError` (via `_validate_in`)
at the first field outside its container. -/
def mkPublishFlags (dup qos retain : Int) : Except FlagErr PublishFlags :=
  if h1 : dup ∈ legalDup then
    if h2 : qos ∈ legalQos then
      if h3 : retain ∈ legalRetain then
        .ok ⟨dup, qos, retain, h1, h2, h3⟩
      else .error ⟨"retain", legalRetain, retain⟩
    else .error ⟨"qos", legalQos, qos⟩
  else .error ⟨"dup", legalDup, dup⟩

/-- `PublishFlags.bits`: `return 0 | (self.dup << 3) | (self.qos << 1) | self.retain`. -/
def PublishFlags.bits (f : PublishFlags) : Int :=
  Int.lor (Int.lor (Int.lor 0 (f.dup <<< 3)) (f.qos <<< 1)) f.retain

/-- `PublishFlags()` default construction: `dup=0, qos=0, retain=0`. -/
def publishFlagsDefault : PublishFlags :=
  ⟨0, 0, 0, by decide, by decide, by decide⟩

/-- The closed family of `FlagBits` subclasses in the source: `PublishFlags`,
`ZeroBits` and `PubrelBits` (the latter shared by `SubscribeBits` and
`UnsubscribeBits` through the aliases on line 46). Python dispatches `bits()`
by the object's class; the tagged variants embed that dispatch. -/
inductive FlagBits where
  | publishFlags (f : PublishFlags)
  | zeroBits
  | pubrelBits

/-- The per-class `bits()` methods: `PublishFlags.bits` as above,
`ZeroBits.bits` returns `0`, `PubrelBits.bits` returns `2  # 0 | 1 << 1`. -/
def FlagBits.bits : FlagBits → Int
  | .publishFlags f => f.bits
  | .zeroBits => 0
  | .pubrelBits => 2

/-- `SubscribeBits = PubrelBits` (class alias on line 46). -/
def SubscribeBits : FlagBits := FlagBits.pubrelBits

/-- `UnsubscribeBits = PubrelBits` (class alias on line 46). -/
def UnsubscribeBits : FlagBits := FlagBits.pubrelBits

/-! ### Control packet type registry (`ControlPacketTypeEnum`) -/

/-- `ControlPacketTypeEnum(enum.IntEnum)`: the 14 named packet kinds.
Values 0 and 15 appear in the source only as `# Reserved` comments. -/
inductive ControlPacketTypeEnum where
  | CONNECT
  | CONNACK
  | PUBLISH
  | PUBACK
  | PUBREC
  | PUBREL
  | PUBCOMP
  | SUBSCRIBE
  | SUBACK
  | UNSUBSCRIBE
  | UNSUBACK
  | PINGREQ
  | PINGRESP
  | DISCONNECT
deriving DecidableEq, Repr

/-- The numeric value of each `ControlPacketTypeEnum` member (its `.value`,
used when the `IntEnum` is converted to an `int`), exactly as assigned in
the source. -/
def ControlPacketTypeEnum.toCode : ControlPacketTypeEnum → Nat
  | .CONNECT => 1
  | .CONNACK => 2
  | .PUBLISH => 3
  | .PUBACK => 4
  | .PUBREC => 5
  | .PUBREL => 6
  | .PUBCOMP => 7
  | .SUBSCRIBE => 8
  | .SUBACK => 9
  | .UNSUBSCRIBE => 10
  | .UNSUBACK => 11
  | .PINGREQ => 12
  | .PINGRESP => 13
  | .DISCONNECT => 14

/-- Value lookup `ControlPacketTypeEnum(code)`: Python's `IntEnum` call
returns the unique member with that value and raises `ValueError` when no
member has it (in particular for the reserved codes 0 and 15). -/
def ControlPacketTypeEnum.ofCode : Nat → Option ControlPacketTypeEnum
  | 1 => some .CONNECT
  | 2 => some .CONNACK
  | 3 => some .PUBLISH
  | 4 => some .PUBACK
  | 5 => some .PUBREC
  | 6 => some .PUBREL
  | 7 => some .PUBCOMP
  | 8 => some .SUBSCRIBE
  | 9 => some .SUBACK
  | 10 => some .UNSUBSCRIBE
  | 11 => some .UNSUBACK
  | 12 => some .PINGREQ
  | 13 => some .PINGRESP
  | 14 => some .DISCONNECT
  | _ => none

/-- The members of `ControlPacketTypeEnum`, in source order. -/
def allPacketTypes : List ControlPacketTypeEnum :=
  [.CONNECT, .CONNACK, .PUBLISH, .PUBACK, .PUBREC, .PUBREL, .PUBCOMP,
   .SUBSCRIBE, .SUBACK, .UNSUBSCRIBE, .UNSUBACK, .PINGREQ, .PINGRESP,
   .DISCONNECT]

/-- Errors of the type-registry decode, named by the design document. -/
inductive TypeDecodeErr where
  | ReservedPacketType (code : Nat)
deriving DecidableEq, Repr

/-- Modelled from the spec: the repository exposes type decoding only as the
`IntEnum` value lookup (`ControlPacketTypeEnum(code)` raising `ValueError`);
the design document names this operation `decode_type` and its failure
`ReservedPacketType` (type code 0 or 15, §4.2/§7). The code mapping itself
is `ControlPacketTypeEnum.ofCode`, taken from the source. -/
def decode_type (code : Nat) : Except TypeDecodeErr ControlPacketTypeEnum :=
  match ControlPacketTypeEnum.ofCode code with
  | some t => .ok t
  | none => .error (.ReservedPacketType code)

/-- Modelled from the spec: `encode_type` is the inverse mapping, the
member's numeric value (§4.2 "Encode: the inverse mapping, always total"). -/
def encode_type (t : ControlPacketTypeEnum) : Nat := t.toCode

/-! ### `RemainingLength` and control packet descriptors -/

/-- `RemainingLength`: a frozen dataclass wrapping `message_size: int`.
The source performs no validation of any kind on `message_size`
(no `__post_init__`), so the constructor is total. -/
structure RemainingLength where
  message_size : Int
deriving DecidableEq, Repr

/-- `RemainingLength(n)`: dataclass `__init__`, which merely stores the
field. -/
def mkRemainingLength (n : Int) : RemainingLength := ⟨n⟩

/-- A constructed control packet descriptor: `flags` plus the `type` field.
`type` is declared `init=False` in every dataclass of the hierarchy, so it is
never caller-suppliable; the base class `ControlPacket` gives it no default
either, so there the attribute is simply never set (embedded as `none`),
while each subclass pins it to its packet kind. -/
structure ControlPacket where
  flags : FlagBits
  type : Option ControlPacketTypeEnum

/-- `ControlPacket.flag_bits`: `return self.flags.bits()`. -/
def ControlPacket.flag_bits (p : ControlPacket) : Int := p.flags.bits

/-- `ControlPacket(flags)`: the generated `__init__` takes only `flags`
(default `ZeroBits()`); `type` has `init=False` and no default, so no value
is ever assigned to it. Note the dataclass machinery performs no `isinstance`
check against the `FlagBits` annotation: any flags object is accepted. -/
def mkControlPacket (flags : FlagBits) : ControlPacket :=
  ⟨flags, none⟩

/-- `PublishControlPacket(flags)`: `type` is pinned to `PUBLISH`
(`init=False`), `flags` defaults to `PublishFlags()`. The `flags: PublishFlags`
annotation is not enforced at runtime, so any flags object is accepted. -/
def mkPublishControlPacket (flags : FlagBits) : ControlPacket :=
  ⟨flags, some .PUBLISH⟩

/-- `PubrelControlPacket(flags)`: `type` pinned to `PUBREL` (`init=False`),
`flags` defaults to `PubrelBits()`; the caller-supplied value is stored
unvalidated. -/
def mkPubrelControlPacket (flags : FlagBits) : ControlPacket :=
  ⟨flags, some .PUBREL⟩

/-- `SubscribeControlPacket(flags)`: `type` pinned to `SUBSCRIBE`
(`init=False`), `flags` defaults to `SubscribeBits()`; the caller-supplied
value is stored unvalidated. -/
def mkSubscribeControlPacket (flags : FlagBits) : ControlPacket :=
  ⟨flags, some .SUBSCRIBE⟩

/-! ### Remaining Length codec (§4.3 of the design document)

The variable-byte-integer encoder/decoder is not present in the available
source fragment; the design document (§4.3, declared authoritative there)
fully specifies it, and the definitions below follow its words. Bytes are
octets, carried as `Nat` values in `[0, 255]`. -/

/-- Error kinds of the Remaining Length codec, named by §4.3/§7. -/
inductive RLErr where
  | OutOfRange
  | MalformedVariableLength
  | TruncatedInput
deriving DecidableEq, Repr

/-- Modelled from the spec: the encode loop of §4.3 — "repeatedly emit
`value % 128`, set the continuation bit if `value ÷ 128` (integer division)
is still nonzero, divide `value` by 128, and continue; the last emitted byte
has its continuation bit clear" (base-128, least-significant byte first;
`+ 128` sets bit 7, the continuation bit). -/
def encodeRLBytes (n : Nat) : List Nat :=
  if h : n / 128 = 0 then [n % 128]
  else (n % 128 + 128) :: encodeRLBytes (n / 128)
decreasing_by
  exact Nat.div_lt_self (Nat.pos_of_ne_zero (fun h0 => h (by simp [h0]))) (by decide)

/-- Modelled from the spec: `encode_remaining_length` (§4.3) — "fails with
`OutOfRange` if `value` < 0 or > 268,435,455. Otherwise produces 1–4
bytes" via the loop above. -/
def encode_remaining_length (n : Int) : Except RLErr (List Nat) :=
  if n < 0 ∨ 268435455 < n then .error .OutOfRange
  else .ok (encodeRLBytes n.toNat)

/-- Modelled from the spec: the decode loop of §4.3 — reads bytes one at a
time, accumulating `multiplier * (byte & 0x7F)` (here `byte % 128`) into a
running total, `multiplier` starting at 1 and multiplied by 128 after each
byte; stops when a byte's continuation bit (bit 7) is clear; fails with
`MalformedVariableLength` if a 5th byte would be required (continuation bit
still set on the 4th byte, `nread = 3`) and with `TruncatedInput` if the
byte source is exhausted first. -/
def decodeRLAux : List Nat → Nat → Nat → Nat → Except RLErr Nat
  | [], _, _, _ => .error .TruncatedInput
  | b :: rest, multiplier, total, nread =>
    let total' := total + multiplier * (b % 128)
    if b < 128 then .ok total'
    else if nread = 3 then .error .MalformedVariableLength
    else decodeRLAux rest (multiplier * 128) total' (nread + 1)

/-- Modelled from the spec: `decode_remaining_length` (§4.3), starting the
loop with multiplier 1, total 0, no bytes read. -/
def decode_remaining_length (bs : List Nat) : Except RLErr Nat :=
  decodeRLAux bs 1 0 0

/-- A sample validated flags value, `PublishFlags(dup=1, qos=2, retain=1)`. -/
def publishFlagsSample : PublishFlags :=
  ⟨1, 2, 1, by decide, by decide, by decide⟩

/-! ### Helper lemmas -/

theorem encodeRLBytes_length_pos (n : Nat) : 0 < (encodeRLBytes n).length := by
  unfold encodeRLBytes
  split <;> simp

theorem encodeRLBytes_length_le :
    ∀ (k n : Nat), 0 < k → n < 128 ^ k → (encodeRLBytes n).length ≤ k := by
  intro k
  induction k with
  | zero => omega
  | succ k ih =>
    intro n _ hn
    unfold encodeRLBytes
    split
    · simp
    · rename_i h
      simp only [List.length_cons]
      have hk : 0 < k := by
        rcases Nat.eq_zero_or_pos k with hk0 | hk0
        · subst hk0
          norm_num at hn
          exact absurd (Nat.div_eq_of_lt hn) h
        · exact hk0
      have hdiv : n / 128 < 128 ^ k := by
        apply Nat.div_lt_of_lt_mul
        calc n < 128 ^ (k + 1) := hn
          _ = 128 * 128 ^ k := by rw [pow_succ, Nat.mul_comm]
      have := ih (n / 128) hk hdiv
      omega

theorem decodeRLAux_encodeRLBytes :
    ∀ (n multiplier total nread : Nat),
      nread + (encodeRLBytes n).length ≤ 4 →
      decodeRLAux (encodeRLBytes n) multiplier total nread =
        .ok (total + multiplier * n) := by
  intro n
  induction n using Nat.strong_induction_on with
  | _ n ih =>
    intro multiplier total nread hlen
    unfold encodeRLBytes
    split
    · rename_i h
      have hn : n < 128 := by omega
      have hmod : n % 128 = n := Nat.mod_eq_of_lt hn
      simp [decodeRLAux, hmod, hn]
    · rename_i h
      have hb : ¬ n % 128 + 128 < 128 := by omega
      have hmod : (n % 128 + 128) % 128 = n % 128 := by omega
      have hlen1 : 0 < (encodeRLBytes (n / 128)).length :=
        encodeRLBytes_length_pos (n / 128)
      have hlen' : nread + 1 + (encodeRLBytes (n / 128)).length ≤ 4 := by
        rw [encodeRLBytes] at hlen
        rw [dif_neg h] at hlen
        simp only [List.length_cons] at hlen
        omega
      have hnread : ¬ nread = 3 := by omega
      have hdiv : n / 128 < n := Nat.div_lt_self (by omega) (by decide)
      simp only [decodeRLAux, hmod]
      rw [if_neg hb, if_neg hnread]
      rw [ih (n / 128) hdiv (multiplier * 128)
        (total + multiplier * (n % 128)) (nread + 1) hlen']
      congr 1
      have key : n % 128 + 128 * (n / 128) = n := Nat.mod_add_div n 128
      calc total + multiplier * (n % 128) + multiplier * 128 * (n / 128)
          = total + multiplier * (n % 128 + 128 * (n / 128)) := by ring
        _ = total + multiplier * n := by rw [key]

theorem mkPublishFlags_ok_inv (d q r : Int) (f : PublishFlags)
    (h : mkPublishFlags d q r = .ok f) :
    f.dup = d ∧ f.qos = q ∧ f.retain = r := by
  unfold mkPublishFlags at h
  split at h
  · split at h
    · split at h
      · cases h
        exact ⟨rfl, rfl, rfl⟩
      · simp at h
    · simp at h
  · simp at h

/-! ### Claim theorems -/

/-- Claim C1: the claim says out-of-range message sizes can never be
constructed, but `RemainingLength` has no validation at all: the constructor
is total and stores 268435456 (and even −1) unchanged. -/
theorem remainingLength_out_of_range_constructible :
    (mkRemainingLength 268435456).message_size = 268435456 ∧
    (mkRemainingLength (-1)).message_size = -1 :=
  ⟨rfl, rfl⟩

/-- Claim C2, counterexample: a `PubrelControlPacket` is constructible with
`ZeroBits` flags — construction is not rejected, and the stored flags
serialize to 0, not the 0b0010 pattern PUBREL requires. -/
theorem controlPacket_wrong_shape_accepted_cex :
    (mkPubrelControlPacket FlagBits.zeroBits).type =
      some ControlPacketTypeEnum.PUBREL ∧
    (mkPubrelControlPacket FlagBits.zeroBits).flag_bits = 0 ∧
    (mkPubrelControlPacket FlagBits.zeroBits).flag_bits ≠ 0b0010 :=
  ⟨rfl, rfl, by decide⟩

/-- Claim C2, amended: each descriptor's default flags have the shape its
kind requires, and every constructible `PublishFlags` has validated
sub-fields; but a caller-supplied flags object is stored unvalidated. -/
theorem controlPacket_default_flags_shape :
    (mkControlPacket FlagBits.zeroBits).flag_bits = 0 ∧
    (mkPublishControlPacket
      (FlagBits.publishFlags publishFlagsDefault)).flag_bits = 0 ∧
    (mkPubrelControlPacket FlagBits.pubrelBits).flag_bits = 0b0010 ∧
    (mkSubscribeControlPacket SubscribeBits).flag_bits = 0b0010 ∧
    (∀ f : PublishFlags,
      f.dup ∈ legalDup ∧ f.qos ∈ legalQos ∧ f.retain ∈ legalRetain) ∧
    (∀ fl : FlagBits, (mkPubrelControlPacket fl).flags = fl ∧
      (mkPubrelControlPacket fl).type = some ControlPacketTypeEnum.PUBREL) :=
  ⟨rfl, by decide, rfl, rfl,
   fun f => ⟨f.dup_mem, f.qos_mem, f.retain_mem⟩,
   fun _ => ⟨rfl, rfl⟩⟩

/-- Claim C3: every successfully constructed `PublishFlags` serializes to
exactly `(dup << 3) | (qos << 1) | retain`, a 4-bit integer. -/
theorem publishFlags_bits_spec (d q r : Int) (f : PublishFlags)
    (h : mkPublishFlags d q r = .ok f) :
    f.bits = Int.lor (Int.lor (d <<< 3) (q <<< 1)) r ∧
    0 ≤ f.bits ∧ f.bits < 16 := by
  obtain ⟨hd, hq, hr⟩ := mkPublishFlags_ok_inv d q r f h
  subst hd; subst hq; subst hr
  clear h
  have h1 : f.dup = 0 ∨ f.dup = 1 := by
    have := f.dup_mem
    simpa [legalDup] using this
  have h2 : f.qos = 0 ∨ f.qos = 1 ∨ f.qos = 2 := by
    have := f.qos_mem
    simpa [legalQos] using this
  have h3 : f.retain = 0 ∨ f.retain = 1 := by
    have := f.retain_mem
    simpa [legalRetain] using this
  rcases h1 with h1 | h1 <;> rcases h2 with h2 | h2 | h2 <;>
    rcases h3 with h3 | h3 <;>
    · simp only [PublishFlags.bits, h1, h2, h3]
      decide

/-- Claim C3, witness at `dup=1, qos=2, retain=1`. -/
theorem publishFlags_bits_spec_w :
    publishFlagsSample.bits =
      Int.lor (Int.lor ((1 : Int) <<< 3) ((2 : Int) <<< 1)) 1 ∧
    0 ≤ publishFlagsSample.bits ∧ publishFlagsSample.bits < 16 :=
  publishFlags_bits_spec 1 2 1 publishFlagsSample rfl

/-- Claim C4: `PublishFlags` construction succeeds iff every sub-field is in
its legal set, and on failure the error names the offending field, its value
and the legal set. -/
theorem publishFlags_validation_iff (d q r : Int) :
    ((∃ f, mkPublishFlags d q r = .ok f) ↔
      (d ∈ legalDup ∧ q ∈ legalQos ∧ r ∈ legalRetain)) ∧
    (∀ e, mkPublishFlags d q r = .error e →
      e.value ∉ e.container ∧
      ((e.attr = "dup" ∧ e.value = d ∧ e.container = legalDup) ∨
       (e.attr = "qos" ∧ e.value = q ∧ e.container = legalQos) ∨
       (e.attr = "retain" ∧ e.value = r ∧ e.container = legalRetain))) := by
  unfold mkPublishFlags
  split_ifs with h1 h2 h3
  · exact ⟨⟨fun _ => ⟨h1, h2, h3⟩, fun _ => ⟨_, rfl⟩⟩,
      fun e he => by simp at he⟩
  · refine ⟨⟨fun ⟨f, hf⟩ => by simp at hf, fun hc => absurd hc.2.2 h3⟩,
      fun e he => ?_⟩
    cases he
    exact ⟨h3, Or.inr (Or.inr ⟨rfl, rfl, rfl⟩)⟩
  · refine ⟨⟨fun ⟨f, hf⟩ => by simp at hf, fun hc => absurd hc.2.1 h2⟩,
      fun e he => ?_⟩
    cases he
    exact ⟨h2, Or.inr (Or.inl ⟨rfl, rfl, rfl⟩)⟩
  · refine ⟨⟨fun ⟨f, hf⟩ => by simp at hf, fun hc => absurd hc.1 h1⟩,
      fun e he => ?_⟩
    cases he
    exact ⟨h1, Or.inl ⟨rfl, rfl, rfl⟩⟩

/-- Claim C4, witness: `qos = 3` fails and the error carries field name
`"qos"`, value 3 and the legal set `(0, 1, 2)`. -/
theorem publishFlags_validation_iff_w :
    (FlagErr.mk "qos" legalQos 3).value ∉ (FlagErr.mk "qos" legalQos 3).container ∧
    (((FlagErr.mk "qos" legalQos 3).attr = "dup" ∧
      (FlagErr.mk "qos" legalQos 3).value = 0 ∧
      (FlagErr.mk "qos" legalQos 3).container = legalDup) ∨
     ((FlagErr.mk "qos" legalQos 3).attr = "qos" ∧
      (FlagErr.mk "qos" legalQos 3).value = 3 ∧
      (FlagErr.mk "qos" legalQos 3).container = legalQos) ∨
     ((FlagErr.mk "qos" legalQos 3).attr = "retain" ∧
      (FlagErr.mk "qos" legalQos 3).value = 0 ∧
      (FlagErr.mk "qos" legalQos 3).container = legalRetain)) :=
  (publishFlags_validation_iff 0 3 0).2 (FlagErr.mk "qos" legalQos 3) rfl

/-- Claim C5: decoding the code produced by encoding any of the 14 packet
types yields the same type again. -/
theorem decode_encode_type_roundtrip :
    ∀ t : ControlPacketTypeEnum, decode_type (encode_type t) = .ok t := by
  intro t; cases t <;> rfl

/-- Claim C6: type codes 0 and 15 fail decode with `ReservedPacketType`,
and every code in 1–14 decodes to exactly one packet type. -/
theorem decode_type_reserved :
    decode_type 0 = .error (.ReservedPacketType 0) ∧
    decode_type 15 = .error (.ReservedPacketType 15) ∧
    ∀ c : Nat, 1 ≤ c → c ≤ 14 →
      ∃ t, decode_type c = .ok t ∧ ∀ t', decode_type c = .ok t' → t' = t := by
  refine ⟨rfl, rfl, ?_⟩
  intro c hc1 hc2
  interval_cases c <;>
    exact ⟨_, rfl, fun t' h => by injection h with h; exact h.symm⟩

/-- Claim C6, witness: code 3 decodes to exactly one packet type. -/
theorem decode_type_reserved_w :
    ∃ t, decode_type 3 = .ok t ∧ ∀ t', decode_type 3 = .ok t' → t' = t :=
  decode_type_reserved.2.2 3 (by decide) (by decide)

/-- Claim C7: flag serialization for non-PUBLISH kinds is constant — 0 for
`ZeroBits` and exactly 0b0010 for `PubrelBits` and its `SubscribeBits` /
`UnsubscribeBits` aliases. -/
theorem nonpublish_flag_bits_constant :
    FlagBits.zeroBits.bits = 0 ∧
    FlagBits.pubrelBits.bits = 0b0010 ∧
    SubscribeBits.bits = 0b0010 ∧
    UnsubscribeBits.bits = 0b0010 :=
  ⟨rfl, rfl, rfl, rfl⟩

/-- Claim C8: `ControlPacketTypeEnum` is a closed enumeration of exactly 14
distinct members whose codes are exactly 1..14, with no member for the
reserved codes 0 and 15. -/
theorem packetType_closed_enumeration :
    allPacketTypes.length = 14 ∧
    (∀ t : ControlPacketTypeEnum, t ∈ allPacketTypes) ∧
    allPacketTypes.Nodup ∧
    allPacketTypes.map ControlPacketTypeEnum.toCode =
      [1, 2, 3, 4, 5, 6, 7, 8, 9, 10, 11, 12, 13, 14] ∧
    (∀ t : ControlPacketTypeEnum, t.toCode ≠ 0 ∧ t.toCode ≠ 15) := by
  refine ⟨rfl, ?_, by decide, rfl, ?_⟩
  · intro t; cases t <;> decide
  · intro t; cases t <;> exact ⟨by decide, by decide⟩

/-- Claim C9: the Remaining Length codec round-trips every value in
[0, 268435455], the encoding taking at most 4 bytes. -/
theorem remaining_length_roundtrip (n : Int) (h0 : 0 ≤ n)
    (h1 : n ≤ 268435455) :
    ∃ bs, encode_remaining_length n = .ok bs ∧ bs.length ≤ 4 ∧
      decode_remaining_length bs = .ok n.toNat ∧ (n.toNat : Int) = n := by
  have hnr : ¬ (n < 0 ∨ 268435455 < n) := by omega
  have hpow : n.toNat < 128 ^ 4 := by
    have h2 : n.toNat < 268435456 := by omega
    calc n.toNat < 268435456 := h2
      _ = 128 ^ 4 := by norm_num
  have hlen : (encodeRLBytes n.toNat).length ≤ 4 :=
    encodeRLBytes_length_le 4 n.toNat (by decide) hpow
  refine ⟨encodeRLBytes n.toNat, ?_, hlen, ?_, Int.toNat_of_nonneg h0⟩
  · unfold encode_remaining_length
    rw [if_neg hnr]
  · unfold decode_remaining_length
    have := decodeRLAux_encodeRLBytes n.toNat 1 0 0 (by omega)
    simpa using this

/-- Claim C9, witness at the upper bound 268435455. -/
theorem remaining_length_roundtrip_w :
    ∃ bs, encode_remaining_length 268435455 = .ok bs ∧ bs.length ≤ 4 ∧
      decode_remaining_length bs = .ok (268435455 : Int).toNat ∧
      (((268435455 : Int).toNat : Int)) = 268435455 :=
  remaining_length_roundtrip 268435455 (by decide) (by decide)

/-- Claim C10: `type` is `init=False` in every specialized descriptor, so
whatever flags a caller supplies, the packet type is pinned to the
subclass's kind. -/
theorem descriptor_type_not_caller_suppliable :
    ∀ fl : FlagBits,
      (mkPublishControlPacket fl).type = some ControlPacketTypeEnum.PUBLISH ∧
      (mkPubrelControlPacket fl).type = some ControlPacketTypeEnum.PUBREL ∧
      (mkSubscribeControlPacket fl).type =
        some ControlPacketTypeEnum.SUBSCRIBE :=
  fun _ => ⟨rfl, rfl, rfl⟩

end Asynqtt
